import Mathlib

/-!
Verification of the multi-source Bitcoin price fetcher (`api_fetcher.py`).

The development shallowly embeds the program's pure core: the response
normalizer `parse_response`, the fallback loop of `main`, the price
formatter `format_price`, and the currency selection loop
`select_currencies`, together with the Python primitives they use
(dict access, `str()`, string methods, `float()` parsing, dict
comprehensions with their exception behavior).

JSON documents are modelled by the inductive `Json`; numbers carry the
decimal text that Python's `str()` renders for them, so that the
normalizer's stringification is exact.  Python exceptions that
`parse_response` catches (`KeyError`, `AttributeError`) and the one it
does not (`TypeError`, from subscripting a non-dict) are modelled with
an `Except PyExn` layer.
-/

namespace ApiFetcher

/-- A JSON value as parsed by Python's `json` module.  A `num` carries the
decimal text that Python's `str()` produces for the number object. -/
inductive Json where
  | null
  | bool (b : Bool)
  | num (text : String)
  | str (s : String)
  | arr (elems : List Json)
  | obj (fields : List (String × Json))

/-- The ASCII apostrophe, used by Python's `repr` of strings. -/
def quoteChar : String := String.mk [Char.ofNat 39]

mutual
/-- Python `repr()` on a parsed-JSON value.  String repr is modelled
without escape handling (exact for strings free of quotes, backslashes
and control characters, which is all the program ever produces). -/
def pyRepr : Json → String
  | .null => "None"
  | .bool true => "True"
  | .bool false => "False"
  | .num t => t
  | .str s => quoteChar ++ s ++ quoteChar
  | .arr xs => "[" ++ pyReprList xs ++ "]"
  | .obj fs => "\x7b" ++ pyReprFields fs ++ "\x7d"

/-- Comma-separated `repr`s of the elements of a Python list. -/
def pyReprList : List Json → String
  | [] => ""
  | x :: xs => pyRepr x ++ (if xs.isEmpty then "" else ", ") ++ pyReprList xs

/-- Comma-separated `repr`s of the items of a Python dict. -/
def pyReprFields : List (String × Json) → String
  | [] => ""
  | (k, v) :: fs =>
    quoteChar ++ k ++ quoteChar ++ ": " ++ pyRepr v ++
      (if fs.isEmpty then "" else ", ") ++ pyReprFields fs
end

/-- Python `str()` on a parsed-JSON value: the string itself for strings,
`repr` otherwise. -/
def pyStr : Json → String
  | .str s => s
  | .null => pyRepr .null
  | .bool b => pyRepr (.bool b)
  | .num t => pyRepr (.num t)
  | .arr xs => pyRepr (.arr xs)
  | .obj fs => pyRepr (.obj fs)

/-- All digits of a decimal numeric text are zero, ignoring sign, the
decimal point and the exponent part: the texts for which the Python
number object is falsy (`0`, `0.0`, `-0.0`, `0e5`, ...). -/
def numTextIsZero (t : String) : Bool :=
  (t.data.takeWhile fun c => c ≠ 'e' ∧ c ≠ 'E').all fun c => !c.isDigit || c == '0'

/-- Python truthiness of a parsed-JSON value (`if data:`). -/
def jsonTruthy : Json → Bool
  | .null => false
  | .bool b => b
  | .num t => !numTextIsZero t
  | .str s => !s.isEmpty
  | .arr xs => !xs.isEmpty
  | .obj fs => !fs.isEmpty

/-- Lookup in a Python dict modelled as an association list (keys of dicts
produced by `json.loads` are unique, so first match suffices). -/
def dictLookup (fs : List (String × α)) (k : String) : Option α :=
  match fs with
  | [] => none
  | (k₁, v) :: rest => if k₁ = k then some v else dictLookup rest k

/-- Python dict assignment `d[k] = v`: overwrite in place if the key is
present, else append (dicts preserve insertion order). -/
def dictSet (d : List (String × α)) (k : String) (v : α) : List (String × α) :=
  if d.any fun p => p.1 = k then
    d.map fun p => if p.1 = k then (k, v) else p
  else d ++ [(k, v)]

/-- The Python exceptions relevant to `parse_response`: the two it
catches and the `TypeError` it does not. -/
inductive PyExn where
  | keyError
  | attributeError
  | typeError
deriving DecidableEq

/-- Python subscript `v[k]` with a string key: field lookup on a dict
(`KeyError` when absent), `TypeError` on any non-dict. -/
def pySubscript (v : Json) (k : String) : Except PyExn Json :=
  match v with
  | .obj fs =>
    match dictLookup fs k with
    | some x => .ok x
    | none => .error .keyError
  | _ => .error .typeError

/-- Python `v.get(k, default)`: only dicts have a `.get` attribute, so a
non-dict raises `AttributeError`. -/
def pyGetD (v : Json) (k : String) (dflt : Json) : Except PyExn Json :=
  match v with
  | .obj fs => .ok ((dictLookup fs k).getD dflt)
  | _ => .error .attributeError

/-- Python `v.items()`: only dicts have an `.items` attribute. -/
def pyItems (v : Json) : Except PyExn (List (String × Json)) :=
  match v with
  | .obj fs => .ok fs
  | _ => .error .attributeError

/-- Python `s.upper()` (ASCII model; the program only handles ASCII
currency codes). -/
def pyUpper (s : String) : String := String.mk (s.data.map Char.toUpper)

/-- Python substring search over character lists. -/
def listContainsSub (pat s : List Char) : Bool :=
  (List.range (s.length + 1)).any fun i => pat.isPrefixOf (s.drop i)

/-- Python `sub in s` on strings. -/
def strContains (s sub : String) : Bool := listContainsSub sub.data s.data

/-- The normalized mapping built by `parse_response`.  The reference
annotates it `Dict[str, str]`, but the coindesk branch stores `info["rate"]`
unconverted, so values are kept as JSON values; the stringifying branches
store `Json.str` values. -/
abbrev PriceMap := List (String × Json)

/-- The coindesk dict comprehension
`(curr: info["rate"] for curr, info in bpi.items())`: built in iteration
order, aborted by the first exception of `info["rate"]`. -/
def coindeskFold : List (String × Json) → PriceMap → Except PyExn PriceMap
  | [], acc => .ok acc
  | (curr, info) :: rest, acc =>
    match pySubscript info "rate" with
    | .ok v => coindeskFold rest (dictSet acc curr v)
    | .error e => .error e

/-- The coingecko dict comprehension
`(curr.upper(): str(price) for curr, price in bitcoin.items())`
(never raises). -/
def coingeckoFold : List (String × Json) → PriceMap → PriceMap
  | [], acc => acc
  | (curr, price) :: rest, acc =>
    coingeckoFold rest (dictSet acc (pyUpper curr) (.str (pyStr price)))

/-- The blockchain dict comprehension
`(curr: str(info["last"]) for curr, info in data.items())`: aborted by the
first exception of `info["last"]`. -/
def blockchainFold : List (String × Json) → PriceMap → Except PyExn PriceMap
  | [], acc => .ok acc
  | (curr, info) :: rest, acc =>
    match pySubscript info "last" with
    | .ok v => blockchainFold rest (dictSet acc curr (.str (pyStr v)))
    | .error e => .error e

/-- The coinbase dict comprehension
`(curr: str(rate) for curr, rate in rates.items() if curr != "BTC")`
(never raises). -/
def coinbaseFold : List (String × Json) → PriceMap → PriceMap
  | [], acc => acc
  | (curr, rate) :: rest, acc =>
    if curr = "BTC" then coinbaseFold rest acc
    else coinbaseFold rest (dictSet acc curr (.str (pyStr rate)))

/-- `parse_response(data, source)`: dispatch on URL substrings, one
extraction rule per known schema, `None` when no rule matches.
`KeyError` and `AttributeError` are caught and turned into `None`;
`TypeError` escapes (`.error .typeError`). -/
def parse_response (data : Json) (source : String) : Except PyExn (Option PriceMap) :=
  let body : Except PyExn (Option PriceMap) :=
    if strContains source "coindesk" then
      match pyGetD data "bpi" (.obj []) with
      | .error e => .error e
      | .ok bpi =>
        match pyItems bpi with
        | .error e => .error e
        | .ok items =>
          match coindeskFold items [] with
          | .error e => .error e
          | .ok m => .ok (some m)
    else if strContains source "coingecko" then
      match pyGetD data "bitcoin" (.obj []) with
      | .error e => .error e
      | .ok btc =>
        match pyItems btc with
        | .error e => .error e
        | .ok items => .ok (some (coingeckoFold items []))
    else if strContains source "blockchain" then
      match pyItems data with
      | .error e => .error e
      | .ok items =>
        match blockchainFold items [] with
        | .error e => .error e
        | .ok m => .ok (some m)
    else if strContains source "coinbase" then
      match pyGetD data "data" (.obj []) with
      | .error e => .error e
      | .ok d₁ =>
        match pyGetD d₁ "rates" (.obj []) with
        | .error e => .error e
        | .ok rates =>
          match pyItems rates with
          | .error e => .error e
          | .ok items => .ok (some (coinbaseFold items []))
    else .ok none
  match body with
  | .error .keyError => .ok none
  | .error .attributeError => .ok none
  | .error .typeError => .error .typeError
  | .ok r => .ok r

-- ========================
-- CONFIGURATION
-- ========================

/-- `DEFAULT_API`. -/
def DEFAULT_API : String := "https://api.exchangerate-api.com/v4/latest/USD"

/-- `BACKUP_APIS`. -/
def BACKUP_APIS : List String :=
  ["https://api.coindesk.com/v2/bpi/currentprice.json",
   "https://api.coingecko.com/api/v3/simple/price?ids=bitcoin&vs_currencies=usd,eur,gbp,jpy,cny",
   "https://blockchain.info/ticker",
   "https://api.coinbase.com/v2/exchange-rates?currency=BTC"]

/-- `CURRENCY_SYMBOLS`. -/
def CURRENCY_SYMBOLS : List (String × String) :=
  [("USD", "$"), ("GBP", "£"), ("EUR", "€"),
   ("JPY", "¥"), ("CNY", "¥"), ("BTC", "₿")]

-- ========================
-- FALLBACK ORCHESTRATOR (the loop of `main`)
-- ========================

/-- Truthiness of the `prices` variable of `main`
(`Optional[Dict]`: `None` and the empty dict are falsy). -/
def pricesTruthy : Option PriceMap → Bool
  | none => false
  | some m => !m.isEmpty

/-- The fallback loop of `main`:
`for url in candidates: data = fetch_data(url); if data: prices = parse_response(data, url); if prices: break`.
`fetch` abstracts `fetch_data` (`none` = request failure).  Returns the
final value of `prices` together with the trace of URLs for which
`fetch_data` was invoked, or the uncaught exception. -/
def fetchLoop (fetch : String → Option Json) :
    List String → Option PriceMap → Except PyExn (Option PriceMap × List String)
  | [], prices => .ok (prices, [])
  | url :: rest, prices =>
    match fetch url with
    | none =>
      match fetchLoop fetch rest prices with
      | .ok (q, t) => .ok (q, url :: t)
      | .error e => .error e
    | some d =>
      if jsonTruthy d then
        match parse_response d url with
        | .error e => .error e
        | .ok p =>
          if pricesTruthy p then .ok (p, [url])
          else
            match fetchLoop fetch rest p with
            | .ok (q, t) => .ok (q, url :: t)
            | .error e => .error e
      else
        match fetchLoop fetch rest prices with
        | .ok (q, t) => .ok (q, url :: t)
        | .error e => .error e

/-- Outcome of the orchestration as observed by the rest of `main`. -/
inductive FetchOutcome where
  | success (m : PriceMap)
  | allFailed

/-- The orchestrator: run the fallback loop over the candidate list and
apply `main`'s `if not prices:` check. -/
def resolvePrices (fetch : String → Option Json) (candidates : List String) :
    Except PyExn FetchOutcome :=
  match fetchLoop fetch candidates none with
  | .error e => .error e
  | .ok (some m, _) => .ok (if m.isEmpty then .allFailed else .success m)
  | .ok (none, _) => .ok .allFailed

-- ========================
-- PER-CANDIDATE BEHAVIOR PREDICATES
-- ========================

/-- The candidate fails: its fetch fails, or the fetched document is falsy,
or its normalization yields `None` or an empty mapping. -/
def candFails (fetch : String → Option Json) (url : String) : Bool :=
  match fetch url with
  | none => true
  | some d =>
    if jsonTruthy d then
      match parse_response d url with
      | .ok p => !pricesTruthy p
      | .error _ => false
    else true

/-- The candidate succeeds: its fetch yields a truthy document whose
normalization yields a non-empty mapping. -/
def candSucceeds (fetch : String → Option Json) (url : String) : Bool :=
  match fetch url with
  | none => false
  | some d =>
    if jsonTruthy d then
      match parse_response d url with
      | .ok p => pricesTruthy p
      | .error _ => false
    else false

/-- The normalization result the loop would assign for this candidate. -/
def candMap (fetch : String → Option Json) (url : String) : Option PriceMap :=
  match fetch url with
  | none => none
  | some d =>
    if jsonTruthy d then
      match parse_response d url with
      | .ok p => p
      | .error _ => none
    else none

-- ========================
-- PRICE FORMATTING (`format_price`)
-- ========================

/-- The whitespace characters stripped by Python's `str.strip()` (ASCII
model; the program's inputs are ASCII). -/
def isPySpace (c : Char) : Bool :=
  c == ' ' || c == Char.ofNat 9 || c == Char.ofNat 10 ||
    c == Char.ofNat 13 || c == Char.ofNat 11 || c == Char.ofNat 12

/-- Python `s.strip()` on a character list. -/
def pyStripList (cs : List Char) : List Char :=
  ((cs.dropWhile isPySpace).reverse.dropWhile isPySpace).reverse

/-- Python `s.strip()`. -/
def pyStrip (s : String) : String := String.mk (pyStripList s.data)

/-- Python `price.replace(",", "")`. -/
def dropCommas (s : String) : String := String.mk (s.data.filter fun c => c ≠ ',')

/-- Validity of the tail of a digit group, after an initial digit:
digits with single underscores strictly between digits. -/
def validGroupAux : List Char → Bool
  | [] => true
  | '_' :: [] => false
  | '_' :: c :: rest => c.isDigit && validGroupAux rest
  | c :: rest => c.isDigit && validGroupAux rest

/-- A valid digit group of a Python float literal:
`digit (underscore? digit)*`. -/
def validGroup : List Char → Bool
  | [] => false
  | c :: rest => c.isDigit && validGroupAux rest

/-- Numeric value of a digit group (underscores skipped). -/
def groupVal (cs : List Char) : Nat :=
  cs.foldl (fun acc c => if c = '_' then acc else acc * 10 + (c.toNat - 48)) 0

/-- Number of digits of a digit group (underscores skipped). -/
def groupDigitCount (cs : List Char) : Nat :=
  (cs.filter fun c => c ≠ '_').length

/-- Split a character list at the first character satisfying `p`
(`none` when absent). -/
def splitAtFirst (p : Char → Bool) : List Char → List Char × Option (List Char)
  | [] => ([], none)
  | c :: rest =>
    if p c then ([], some rest)
    else
      let (l, r) := splitAtFirst p rest
      (c :: l, r)

/-- The values of Python's `float`: a finite value is modelled as the
exact decimal `m × 10^e` denoted by the literal (the nearest-double
rounding of the binary format, and the signed zero, are not modelled;
the model is exact on every value the claims evaluate). -/
inductive PyFloat where
  | finite (m : ℤ) (e : ℤ)
  | inf (neg : Bool)
  | nan
deriving DecidableEq

/-- Parse the mantissa of a Python float literal:
`group` or `group.` or `group.group` or `.group`, as `m × 10^e`. -/
def parseMantissa (cs : List Char) : Option (ℤ × ℤ) :=
  match splitAtFirst (fun c => c == '.') cs with
  | (whole, none) => if validGroup whole then some ((groupVal whole : ℤ), 0) else none
  | (whole, some fracPart) =>
    if whole.isEmpty then
      if validGroup fracPart then
        some ((groupVal fracPart : ℤ), -(groupDigitCount fracPart : ℤ))
      else none
    else if validGroup whole then
      if fracPart.isEmpty then some ((groupVal whole : ℤ), 0)
      else if validGroup fracPart then
        some ((groupVal whole * 10 ^ groupDigitCount fracPart + groupVal fracPart : ℤ),
          -(groupDigitCount fracPart : ℤ))
      else none
    else none

/-- Parse the exponent of a Python float literal: optional sign, then a
digit group. -/
def parseExp (cs : List Char) : Option ℤ :=
  match cs with
  | [] => none
  | '+' :: rest => if validGroup rest then some (groupVal rest : ℤ) else none
  | '-' :: rest => if validGroup rest then some (-(groupVal rest : ℤ)) else none
  | _ => if validGroup cs then some (groupVal cs : ℤ) else none

/-- Parse an unsigned Python float text: `inf`, `infinity`, `nan`
(case-insensitive) or `mantissa [e exponent]`. -/
def parseUnsigned (cs : List Char) : Option PyFloat :=
  let low := cs.map Char.toLower
  if low = "inf".data ∨ low = "infinity".data then some (.inf false)
  else if low = "nan".data then some .nan
  else
    match splitAtFirst (fun c => c == 'e' || c == 'E') cs with
    | (mant, none) => (parseMantissa mant).map fun me => .finite me.1 me.2
    | (mant, some ex) =>
      match parseMantissa mant, parseExp ex with
      | some me, some e => some (.finite me.1 (me.2 + e))
      | _, _ => none

/-- Parse a signed Python float text (after stripping). -/
def parseSigned : List Char → Option PyFloat
  | [] => none
  | '+' :: rest => parseUnsigned rest
  | '-' :: rest =>
    match parseUnsigned rest with
    | some (.finite m e) => some (.finite (-m) e)
    | some (.inf _) => some (.inf true)
    | some .nan => some .nan
    | none => none
  | cs => parseUnsigned cs

/-- Python `float(s)`: strip whitespace, then parse a signed float text;
`none` models `ValueError`. -/
def pyFloatParse (s : String) : Option PyFloat := parseSigned (pyStripList s.data)

/-- Round `m × 10^k` to the nearest integer, ties to even (the rounding of
Python's fixed-point formatting), by integer floor division. -/
def roundHalfEvenScaled (m k : ℤ) : ℤ :=
  if 0 ≤ k then m * 10 ^ k.toNat
  else
    let p : ℤ := 10 ^ (-k).toNat
    let f := m.fdiv p
    let r := m.fmod p
    if 2 * r < p then f
    else if p < 2 * r then f + 1
    else if f % 2 = 0 then f else f + 1

/-- Chunks of at most three characters, from the front. -/
def chunk3 : List Char → List (List Char)
  | [] => []
  | a :: [] => [[a]]
  | a :: b :: [] => [[a, b]]
  | a :: b :: c :: rest => [a, b, c] :: chunk3 rest

/-- Insert thousands separators into the decimal digits of the integer
part (most significant first). -/
def groupThousands (ds : List Char) : List Char :=
  List.intercalate [','] (((chunk3 ds.reverse).map List.reverse).reverse)

/-- Python `f"{x:,.2f}"`: two decimal places, ties to even, thousands
separators, sign taken from the value. -/
def formatFixed2 : PyFloat → String
  | .nan => "nan"
  | .inf true => "-inf"
  | .inf false => "inf"
  | .finite m e =>
    let n := roundHalfEvenScaled m (e + 2)
    let a := n.natAbs
    let sign := if m < 0 then "-" else ""
    sign ++ String.mk (groupThousands (Nat.toDigits 10 (a / 100))) ++ "." ++
      String.mk [Nat.digitChar (a % 100 / 10), Nat.digitChar (a % 10)]

/-- `format_price(currency, price)`: symbol lookup with empty default,
strip commas, format as a float with separators and two decimals, or pass
the raw string through on `ValueError`. -/
def format_price (currency price : String) : String :=
  let symbol := (dictLookup CURRENCY_SYMBOLS currency).getD ""
  let clean := dropCommas price
  match pyFloatParse clean with
  | some x => symbol ++ formatFixed2 x
  | none => symbol ++ price

-- ========================
-- CURRENCY SELECTION (`select_currencies`)
-- ========================

/-- Python `s.split(",")` on a character list, with an accumulator for the
current piece (reversed). -/
def splitCommaAux : List Char → List Char → List (List Char)
  | [], acc => [acc.reverse]
  | ',' :: rest, acc => acc.reverse :: splitCommaAux rest []
  | c :: rest, acc => splitCommaAux rest (c :: acc)

/-- Python `s.split(",")`. -/
def splitComma (s : String) : List String := (splitCommaAux s.data []).map String.mk

/-- `select_currencies(available)`: the prompt loop, driven by the list of
lines the user would enter (`none` when the scripted input is exhausted
while the loop still asks).  Each line is stripped (`get_user_input`) and
uppercased; blank selects all; a selection containing any unknown code is
rejected as a whole and the loop re-prompts. -/
def select_currencies (available : List String) : List String → Option (List String)
  | [] => none
  | line :: rest =>
    let selection := pyUpper (pyStrip line)
    if selection.isEmpty then some available
    else
      let selected := (splitComma selection).map pyStrip
      let invalid := selected.filter fun c => !available.contains c
      if invalid.isEmpty then some selected
      else select_currencies available rest

-- ========================
-- HELPER LEMMAS: the fallback loop
-- ========================

/-- A failing candidate at the head of the list: the loop fetches it, keeps
a falsy `prices`, and continues with the remaining candidates. -/
theorem fetchLoop_fail_cons (fetch : String → Option Json) (url : String)
    (rest : List String) (prices : Option PriceMap)
    (hfail : candFails fetch url = true) (hfalsy : pricesTruthy prices = false) :
    ∃ prices₁, pricesTruthy prices₁ = false ∧
      fetchLoop fetch (url :: rest) prices =
        match fetchLoop fetch rest prices₁ with
        | .ok (q, t) => .ok (q, url :: t)
        | .error e => .error e := by
  cases hf : fetch url with
  | none =>
    refine ⟨prices, hfalsy, ?_⟩
    simp only [fetchLoop, hf]
  | some d =>
    simp only [candFails, hf] at hfail
    by_cases ht : jsonTruthy d
    · rw [if_pos ht] at hfail
      cases hp : parse_response d url with
      | error e => simp [hp] at hfail
      | ok p =>
        simp only [hp] at hfail
        have hpf : pricesTruthy p = false := by
          cases h : pricesTruthy p
          · rfl
          · rw [h] at hfail; cases hfail
        refine ⟨p, hpf, ?_⟩
        simp [fetchLoop, hf, ht, hp, hpf]
    · refine ⟨prices, hfalsy, ?_⟩
      simp only [fetchLoop, hf, if_neg ht]

/-- A succeeding candidate at the head of the list: the loop stops there
and returns its normalized mapping, having fetched only it. -/
theorem fetchLoop_success_cons (fetch : String → Option Json) (url : String)
    (rest : List String) (prices : Option PriceMap)
    (hsucc : candSucceeds fetch url = true) :
    fetchLoop fetch (url :: rest) prices = .ok (candMap fetch url, [url]) := by
  cases hf : fetch url with
  | none => simp [candSucceeds, hf] at hsucc
  | some d =>
    simp only [candSucceeds, hf] at hsucc
    by_cases ht : jsonTruthy d
    · rw [if_pos ht] at hsucc
      cases hp : parse_response d url with
      | error e => simp [hp] at hsucc
      | ok p =>
        simp only [hp] at hsucc
        simp [fetchLoop, candMap, hf, ht, hp, hsucc]
    · rw [if_neg ht] at hsucc; cases hsucc

/-- A succeeding candidate's normalization result is a truthy mapping. -/
theorem candMap_truthy (fetch : String → Option Json) (url : String)
    (hsucc : candSucceeds fetch url = true) :
    pricesTruthy (candMap fetch url) = true := by
  cases hf : fetch url with
  | none => simp [candSucceeds, hf] at hsucc
  | some d =>
    simp only [candSucceeds, hf] at hsucc
    by_cases ht : jsonTruthy d
    · rw [if_pos ht] at hsucc
      cases hp : parse_response d url with
      | error e => simp [hp] at hsucc
      | ok p =>
        simp only [hp] at hsucc
        simp [candMap, hf, ht, hp, hsucc]
    · rw [if_neg ht] at hsucc; cases hsucc

/-- The loop scans past any block of failing candidates, fetching each of
them in order, with `prices` still falsy. -/
theorem fetchLoop_skip_failing (fetch : String → Option Json) (pre : List String) :
    ∀ (rest : List String) (prices : Option PriceMap),
    (∀ c ∈ pre, candFails fetch c = true) → pricesTruthy prices = false →
    ∃ prices₁, pricesTruthy prices₁ = false ∧
      fetchLoop fetch (pre ++ rest) prices =
        match fetchLoop fetch rest prices₁ with
        | .ok (q, t) => .ok (q, pre ++ t)
        | .error e => .error e := by
  induction pre with
  | nil =>
    intro rest prices _ hfalsy
    refine ⟨prices, hfalsy, ?_⟩
    cases h : fetchLoop fetch rest prices with
    | error e => simp [h]
    | ok qt => obtain ⟨q, t⟩ := qt; simp [h]
  | cons u pre ih =>
    intro rest prices hfail hfalsy
    obtain ⟨p₁, hp₁, heq₁⟩ :=
      fetchLoop_fail_cons fetch u (pre ++ rest) prices (hfail u (by simp)) hfalsy
    obtain ⟨p₂, hp₂, heq₂⟩ :=
      ih rest p₁ (fun c hc => hfail c (by simp [hc])) hp₁
    refine ⟨p₂, hp₂, ?_⟩
    rw [List.cons_append, heq₁, heq₂]
    cases h : fetchLoop fetch rest p₂ with
    | error e => simp
    | ok qt => obtain ⟨q, t⟩ := qt; simp

-- ========================
-- CLAIM THEOREMS: the orchestrator
-- ========================

/-- C1: for every candidate list split as a block of failing candidates, a
succeeding candidate, and an arbitrary tail, the orchestrator returns
exactly the succeeding candidate's normalized mapping, and the loop
fetches exactly the failing block followed by that candidate — no later
candidate is fetched or normalized, and no mappings are merged. -/
theorem claim1_first_success_wins (fetch : String → Option Json)
    (pre post : List String) (url : String) (m : PriceMap)
    (hfail : ∀ c ∈ pre, candFails fetch c = true)
    (hsucc : candSucceeds fetch url = true)
    (hmap : candMap fetch url = some m) :
    resolvePrices fetch (pre ++ url :: post) = .ok (.success m) ∧
      fetchLoop fetch (pre ++ url :: post) none = .ok (some m, pre ++ [url]) := by
  obtain ⟨p₁, hp₁, heq⟩ := fetchLoop_skip_failing fetch pre (url :: post) none hfail rfl
  rw [fetchLoop_success_cons fetch url post p₁ hsucc, hmap] at heq
  have hm : m.isEmpty = false := by
    have := candMap_truthy fetch url hsucc
    rw [hmap] at this
    simpa [pricesTruthy] using this
  refine ⟨?_, heq⟩
  rw [resolvePrices, heq]
  simp [hm]

/-- C2: a successfully reported PriceMap is never empty, and a candidate
whose document is truthy but whose normalization yields `None` or an empty
mapping makes the loop continue with the next candidate. -/
theorem claim2_nonempty_success_and_fallback :
    (∀ (fetch : String → Option Json) (cands : List String) (m : PriceMap),
      resolvePrices fetch cands = .ok (.success m) → m ≠ []) ∧
    (∀ (fetch : String → Option Json) (url : String) (d : Json)
      (rest : List String) (prices p : Option PriceMap),
      fetch url = some d → jsonTruthy d = true → parse_response d url = .ok p →
      pricesTruthy p = false →
      fetchLoop fetch (url :: rest) prices =
        match fetchLoop fetch rest p with
        | .ok (q, t) => .ok (q, url :: t)
        | .error e => .error e) := by
  constructor
  · intro fetch cands m h
    rw [resolvePrices] at h
    cases hl : fetchLoop fetch cands none with
    | error e => rw [hl] at h; cases h
    | ok qt =>
      obtain ⟨q, t⟩ := qt
      rw [hl] at h
      cases q with
      | none => simp at h
      | some m₁ =>
        simp only at h
        by_cases he : m₁.isEmpty
        · rw [if_pos he] at h; simp at h
        · rw [if_neg he] at h
          have : m₁ = m := by
            injection h with h₁
            cases h₁
            rfl
          subst this
          simpa [List.isEmpty_iff] using he
  · intro fetch url d rest prices p hf ht hp hfalsy
    simp only [fetchLoop, hf, if_pos ht, hp, hfalsy]
    simp

/-- C6: when every candidate fails — fetch failure, falsy document, or a
normalization yielding `None` or an empty mapping — the orchestrator
reports `allFailed` as an ordinary return value (no exception), with no
PriceMap. -/
theorem claim6_all_failed (fetch : String → Option Json) (cands : List String)
    (hfail : ∀ c ∈ cands, candFails fetch c = true) :
    resolvePrices fetch cands = .ok .allFailed := by
  obtain ⟨p₁, hp₁, heq⟩ := fetchLoop_skip_failing fetch cands [] none hfail rfl
  rw [List.append_nil] at heq
  simp only [fetchLoop] at heq
  rw [resolvePrices, heq]
  cases p₁ with
  | none => simp
  | some m =>
    have : m.isEmpty = true := by simpa [pricesTruthy] using hp₁
    simp [this]

/-- C10: the default primary URL matches none of the four schema tags, so
its responses never normalize; prepending it to the backup list never
changes the orchestration outcome. -/
theorem claim10_default_api_never_normalizes :
    (∀ d : Json, parse_response d DEFAULT_API = .ok none) ∧
    (∀ fetch : String → Option Json,
      resolvePrices fetch (DEFAULT_API :: BACKUP_APIS) =
        resolvePrices fetch BACKUP_APIS) := by
  have h₁ : strContains DEFAULT_API "coindesk" = false := by decide
  have h₂ : strContains DEFAULT_API "coingecko" = false := by decide
  have h₃ : strContains DEFAULT_API "blockchain" = false := by decide
  have h₄ : strContains DEFAULT_API "coinbase" = false := by decide
  have hparse : ∀ d : Json, parse_response d DEFAULT_API = .ok none := by
    intro d
    simp only [parse_response, h₁, h₂, h₃, h₄]
    simp
  refine ⟨hparse, ?_⟩
  intro fetch
  have hloop : fetchLoop fetch (DEFAULT_API :: BACKUP_APIS) none =
      match fetchLoop fetch BACKUP_APIS none with
      | .ok (q, t) => .ok (q, DEFAULT_API :: t)
      | .error e => .error e := by
    cases hf : fetch DEFAULT_API with
    | none => simp only [fetchLoop, hf]
    | some d =>
      by_cases ht : jsonTruthy d
      · simp only [fetchLoop, hf, if_pos ht, hparse d, pricesTruthy, if_neg]
        simp
      · simp only [fetchLoop, hf, if_neg ht]
  rw [resolvePrices, resolvePrices, hloop]
  cases h : fetchLoop fetch BACKUP_APIS none with
  | error e => simp
  | ok qt => obtain ⟨q, t⟩ := qt; cases q <;> simp

-- ========================
-- HELPER LEMMAS: the normalizer
-- ========================

/-- Assigning a fresh key appends the binding. -/
theorem dictSet_of_fresh (acc : List (String × α)) (k : String) (v : α)
    (h : ∀ kv ∈ acc, kv.1 ≠ k) : dictSet acc k v = acc ++ [(k, v)] := by
  rw [dictSet, if_neg]
  simp only [List.any_eq_true, decide_eq_true_eq, not_exists]
  intro kv hmem
  exact h kv hmem.1 hmem.2

/-- The entry the coinbase comprehension produces for one item of
`data.rates`. -/
def cbEntry (kv : String × Json) : Option (String × Json) :=
  if kv.1 = "BTC" then none else some (kv.1, .str (pyStr kv.2))

/-- With distinct keys (as `json.loads` guarantees), the coinbase
comprehension is a filter of the non-`BTC` items with stringified values. -/
theorem coinbaseFold_eq_filterMap (rates : List (String × Json)) :
    ∀ acc : List (String × Json),
    (∀ kv ∈ rates, ∀ kv' ∈ acc, kv.1 ≠ kv'.1) → (rates.map Prod.fst).Nodup →
    coinbaseFold rates acc = acc ++ rates.filterMap cbEntry := by
  induction rates with
  | nil => intro acc _ _; simp [coinbaseFold]
  | cons kv rest ih =>
    intro acc hdisj hnd
    obtain ⟨c, r⟩ := kv
    rw [List.map_cons, List.nodup_cons] at hnd
    by_cases hc : c = "BTC"
    · subst hc
      rw [coinbaseFold, if_pos rfl]
      rw [ih acc (fun kv h kv' h' => hdisj kv (by simp [h]) kv' h') hnd.2]
      simp [cbEntry]
    · rw [coinbaseFold, if_neg hc]
      have hfresh : ∀ kv' ∈ acc, kv'.1 ≠ c :=
        fun kv' h' => Ne.symm (hdisj (c, r) (by simp) kv' h')
      rw [dictSet_of_fresh acc c (.str (pyStr r)) hfresh]
      have hdisj' : ∀ kv ∈ rest, ∀ kv' ∈ acc ++ [(c, Json.str (pyStr r))],
          kv.1 ≠ kv'.1 := by
        intro kv hkv kv' hkv'
        rcases List.mem_append.mp hkv' with h' | h'
        · exact hdisj kv (by simp [hkv]) kv' h'
        · have hkv'' : kv' = (c, Json.str (pyStr r)) := by simpa using h'
          subst hkv''
          intro he
          exact hnd.1 (List.mem_map.mpr ⟨kv, hkv, he⟩)
      rw [ih (acc ++ [(c, Json.str (pyStr r))]) hdisj' hnd.2]
      simp [cbEntry, hc, List.append_assoc]

/-- The blockchain comprehension raises `KeyError` (caught by
`parse_response`) when every member is an object and some member has no
`last` field. -/
theorem blockchainFold_keyError (items : List (String × Json)) :
    ∀ acc, (∀ kv ∈ items, ∃ gs, kv.2 = Json.obj gs) →
    (∃ kv ∈ items, ∃ gs, kv.2 = Json.obj gs ∧ dictLookup gs "last" = none) →
    blockchainFold items acc = .error .keyError := by
  induction items with
  | nil => intro acc _ h; simp at h
  | cons kv rest ih =>
    intro acc hobjs hex
    obtain ⟨c, i⟩ := kv
    obtain ⟨gs, hgs⟩ := hobjs (c, i) (by simp)
    simp only at hgs
    subst hgs
    cases hl : dictLookup gs "last" with
    | none =>
      rw [blockchainFold]
      simp [pySubscript, hl]
    | some v =>
      rw [blockchainFold]
      simp only [pySubscript, hl]
      apply ih
      · exact fun kv h => hobjs kv (by simp [h])
      · rcases hex with ⟨kv₁, hmem, gs₁, hgs₁, hnone⟩
        rcases List.mem_cons.mp hmem with h₀ | h₀
        · exfalso
          subst h₀
          simp only at hgs₁
          injection hgs₁ with h₂
          subst h₂
          rw [hl] at hnone
          cases hnone
        · exact ⟨kv₁, h₀, gs₁, hgs₁, hnone⟩

-- ========================
-- CLAIM THEOREMS: the normalizer
-- ========================

/-- C3 as stated is false: a coindesk-like input without `bpi` normalizes
to the empty mapping, not to `None` (`data.get("bpi", {})` defaults to an
empty dict). -/
theorem claim3_counterexample :
    parse_response (.obj []) "https://api.coindesk.com/v2/bpi/currentprice.json" =
      .ok (some []) ∧
    parse_response (.obj []) "https://api.coindesk.com/v2/bpi/currentprice.json" ≠
      .ok none := by
  have h : parse_response (.obj []) "https://api.coindesk.com/v2/bpi/currentprice.json" =
      .ok (some []) := by rfl
  refine ⟨h, ?_⟩
  rw [h]
  intro hcontra
  injection hcontra with h₁
  exact Option.noConfusion h₁

/-- C3 amended: a coindesk-like input without `bpi`, a coingecko-like
input without `bitcoin`, and a coinbase-like input without `data.rates`
normalize to the empty mapping — never `None` and never a partial mapping;
a blockchain-like object input all of whose members are objects, some
member lacking `last`, normalizes to `None`.  Both results are falsy and
treated as failure downstream. -/
theorem claim3_missing_field_behavior :
    (∀ (source : String) (fs : List (String × Json)),
      strContains source "coindesk" = true → dictLookup fs "bpi" = none →
      parse_response (.obj fs) source = .ok (some [])) ∧
    (∀ (source : String) (fs : List (String × Json)),
      strContains source "coindesk" = false → strContains source "coingecko" = true →
      dictLookup fs "bitcoin" = none →
      parse_response (.obj fs) source = .ok (some [])) ∧
    (∀ (source : String) (fs : List (String × Json)),
      strContains source "coindesk" = false → strContains source "coingecko" = false →
      strContains source "blockchain" = true →
      (∀ kv ∈ fs, ∃ gs, kv.2 = Json.obj gs) →
      (∃ kv ∈ fs, ∃ gs, kv.2 = Json.obj gs ∧ dictLookup gs "last" = none) →
      parse_response (.obj fs) source = .ok none) ∧
    (∀ (source : String) (fs : List (String × Json)),
      strContains source "coindesk" = false → strContains source "coingecko" = false →
      strContains source "blockchain" = false → strContains source "coinbase" = true →
      (dictLookup fs "data" = none ∨
        ∃ gs, dictLookup fs "data" = some (.obj gs) ∧ dictLookup gs "rates" = none) →
      parse_response (.obj fs) source = .ok (some [])) := by
  refine ⟨?_, ?_, ?_, ?_⟩
  · intro source fs h₁ h₂
    simp [parse_response, h₁, pyGetD, h₂, pyItems, coindeskFold]
  · intro source fs h₁ h₂ h₃
    simp [parse_response, h₁, h₂, pyGetD, h₃, pyItems, coingeckoFold]
  · intro source fs h₁ h₂ h₃ hobjs hex
    simp [parse_response, h₁, h₂, h₃, pyItems, blockchainFold_keyError fs [] hobjs hex]
  · intro source fs h₁ h₂ h₃ h₄ hd
    rcases hd with hd | ⟨gs, hd, hr⟩
    · simp [parse_response, h₁, h₂, h₃, h₄, pyGetD, hd, dictLookup, pyItems, coinbaseFold]
    · simp [parse_response, h₁, h₂, h₃, h₄, pyGetD, hd, hr, dictLookup, pyItems, coinbaseFold]

/-- C4: for a coinbase-like input whose `data.rates` contains a `BTC`
entry (and distinct keys, as `json.loads` guarantees), the normalized
mapping is exactly the non-`BTC` entries with stringified values: it never
contains the key `BTC`, and every other entry is passed through. -/
theorem claim4_coinbase_excludes_btc (source : String)
    (fs gs rates : List (String × Json)) (v : Json)
    (h₁ : strContains source "coindesk" = false)
    (h₂ : strContains source "coingecko" = false)
    (h₃ : strContains source "blockchain" = false)
    (h₄ : strContains source "coinbase" = true)
    (hdata : dictLookup fs "data" = some (.obj gs))
    (hrates : dictLookup gs "rates" = some (.obj rates))
    (hbtc : ("BTC", v) ∈ rates)
    (hnd : (rates.map Prod.fst).Nodup) :
    parse_response (.obj fs) source = .ok (some (rates.filterMap cbEntry)) ∧
    (∀ kv ∈ rates.filterMap cbEntry, kv.1 ≠ "BTC") ∧
    (∀ kv ∈ rates, kv.1 ≠ "BTC" →
      (kv.1, Json.str (pyStr kv.2)) ∈ rates.filterMap cbEntry) := by
  refine ⟨?_, ?_, ?_⟩
  · have hfold := coinbaseFold_eq_filterMap rates [] (by simp) hnd
    rw [List.nil_append] at hfold
    simp [parse_response, h₁, h₂, h₃, h₄, pyGetD, hdata, hrates, pyItems, hfold]
  · intro kv hkv
    rcases List.mem_filterMap.mp hkv with ⟨a, ha, hae⟩
    rw [cbEntry] at hae
    by_cases h : a.1 = "BTC"
    · rw [if_pos h] at hae; cases hae
    · rw [if_neg h] at hae
      injection hae with hae₁
      subst hae₁
      simpa using h
  · intro kv hkv hne
    exact List.mem_filterMap.mpr ⟨kv, hkv, by rw [cbEntry, if_neg hne]⟩

/-- A minimal well-formed coindesk-like response. -/
def coindeskFixture : Json :=
  .obj [("bpi", .obj [("USD", .obj [("rate", .str "26140.88")])])]

/-- A minimal well-formed coingecko-like response. -/
def coingeckoFixture : Json := .obj [("bitcoin", .obj [("usd", .num "30000.5")])]

/-- A minimal well-formed blockchain-like response. -/
def blockchainFixture : Json := .obj [("USD", .obj [("last", .num "30000.5")])]

/-- A minimal well-formed coinbase-like response. -/
def coinbaseFixture : Json :=
  .obj [("data", .obj [("rates", .obj [("USD", .str "30000.5")])])]

/-- Every key of the mapping is an uppercase code and every value is a
string. -/
def upperKeysStrVals (m : PriceMap) : Bool :=
  m.all fun kv =>
    (kv.1.data.all fun c => c.isUpper) &&
      (match kv.2 with | .str _ => true | _ => false)

/-- C5: each of the four known schemas, on a minimal well-formed fixture
fetched from its registry URL, normalizes to a non-empty mapping with
uppercase currency-code keys and string values. -/
theorem claim5_fixture_normalization :
    (parse_response coindeskFixture "https://api.coindesk.com/v2/bpi/currentprice.json" =
        .ok (some [("USD", .str "26140.88")]) ∧
      ([("USD", Json.str "26140.88")] : PriceMap) ≠ [] ∧
      upperKeysStrVals [("USD", .str "26140.88")] = true) ∧
    (parse_response coingeckoFixture
        "https://api.coingecko.com/api/v3/simple/price?ids=bitcoin&vs_currencies=usd,eur,gbp,jpy,cny" =
        .ok (some [("USD", .str "30000.5")]) ∧
      ([("USD", Json.str "30000.5")] : PriceMap) ≠ [] ∧
      upperKeysStrVals [("USD", .str "30000.5")] = true) ∧
    (parse_response blockchainFixture "https://blockchain.info/ticker" =
        .ok (some [("USD", .str "30000.5")]) ∧
      ([("USD", Json.str "30000.5")] : PriceMap) ≠ [] ∧
      upperKeysStrVals [("USD", .str "30000.5")] = true) ∧
    (parse_response coinbaseFixture "https://api.coinbase.com/v2/exchange-rates?currency=BTC" =
        .ok (some [("USD", .str "30000.5")]) ∧
      ([("USD", Json.str "30000.5")] : PriceMap) ≠ [] ∧
      upperKeysStrVals [("USD", .str "30000.5")] = true) := by
  refine ⟨⟨by rfl, by simp, by rfl⟩, ⟨by rfl, by simp, by rfl⟩,
    ⟨by rfl, by simp, by rfl⟩, ⟨by rfl, by simp, by rfl⟩⟩

/-- C7: a source URL containing none of the four schema tags normalizes to
`None` without raising and without producing any mapping. -/
theorem claim7_unknown_source_yields_none (data : Json) (source : String)
    (h₁ : strContains source "coindesk" = false)
    (h₂ : strContains source "coingecko" = false)
    (h₃ : strContains source "blockchain" = false)
    (h₄ : strContains source "coinbase" = false) :
    parse_response data source = .ok none := by
  simp [parse_response, h₁, h₂, h₃, h₄]

-- ========================
-- CLAIM THEOREMS: formatting and selection
-- ========================

/-- C8: `format_price("USD", "1234.5")` gives `$1,234.50`;
`format_price("XYZ", "not-a-number")` gives `not-a-number`; and in
general, for a currency with no symbol mapping and a value that does not
parse as a float, the raw string comes back unchanged. -/
theorem claim8_format_price :
    format_price "USD" "1234.5" = "$1,234.50" ∧
    format_price "XYZ" "not-a-number" = "not-a-number" ∧
    (∀ currency price, dictLookup CURRENCY_SYMBOLS currency = none →
      pyFloatParse (dropCommas price) = none →
      format_price currency price = price) := by
  refine ⟨by rfl, by rfl, ?_⟩
  intro currency price h₁ h₂
  simp [format_price, h₁, h₂]

/-- C9: over available currencies `{USD, EUR, GBP}`, the input
`"usd, eur"` selects exactly `[USD, EUR]`; a line containing any code not
in the available set is rejected as a whole (the loop re-prompts on the
remaining input, accepting no partial selection); a blank line selects all
available currencies. -/
theorem claim9_select_currencies :
    select_currencies ["USD", "EUR", "GBP"] ["usd, eur"] = some ["USD", "EUR"] ∧
    (∀ (available rest : List String) (line : String),
      (pyUpper (pyStrip line)).isEmpty = false →
      (∃ c ∈ (splitComma (pyUpper (pyStrip line))).map pyStrip,
        available.contains c = false) →
      select_currencies available (line :: rest) = select_currencies available rest) ∧
    (∀ (available rest : List String) (line : String),
      pyStrip line = "" →
      select_currencies available (line :: rest) = some available) := by
  refine ⟨by rfl, ?_, ?_⟩
  · intro available rest line h₁ h₂
    rw [select_currencies, if_neg (by simp [h₁])]
    rw [if_neg]
    obtain ⟨c, hc, hcontains⟩ := h₂
    intro hempty
    have hmem : c ∈ ((splitComma (pyUpper (pyStrip line))).map pyStrip).filter
        (fun c => !available.contains c) := by
      rw [List.mem_filter]
      refine ⟨hc, ?_⟩
      simpa using hcontains
    rw [List.isEmpty_iff] at hempty
    rw [hempty] at hmem
    cases hmem
  · intro available rest line h
    rw [select_currencies, if_pos]
    rw [h]
    rfl

-- ========================
-- WITNESSES
-- ========================

/-- A scripted fetch: only the coinbase registry URL answers, with the
coinbase fixture. -/
def fetchScript : String → Option Json := fun u =>
  if u = "https://api.coinbase.com/v2/exchange-rates?currency=BTC" then some coinbaseFixture
  else none

/-- Witness for C1: two failing candidates, then the succeeding coinbase
candidate, then a candidate that is never fetched. -/
theorem claim1_witness :
    (∀ c ∈ (["https://one.example", "https://two.example"] : List String),
      candFails fetchScript c = true) ∧
    candSucceeds fetchScript "https://api.coinbase.com/v2/exchange-rates?currency=BTC" = true ∧
    resolvePrices fetchScript
      (["https://one.example", "https://two.example"] ++
        "https://api.coinbase.com/v2/exchange-rates?currency=BTC" :: ["https://four.example"]) =
      .ok (.success [("USD", .str "30000.5")]) ∧
    fetchLoop fetchScript
      (["https://one.example", "https://two.example"] ++
        "https://api.coinbase.com/v2/exchange-rates?currency=BTC" :: ["https://four.example"])
      none =
      .ok (some [("USD", .str "30000.5")],
        ["https://one.example", "https://two.example"] ++
          ["https://api.coinbase.com/v2/exchange-rates?currency=BTC"]) := by
  have h := claim1_first_success_wins fetchScript
    ["https://one.example", "https://two.example"] ["https://four.example"]
    "https://api.coinbase.com/v2/exchange-rates?currency=BTC"
    [("USD", .str "30000.5")] (by decide) (by decide) (by rfl)
  exact ⟨by decide, by decide, h.1, h.2⟩

/-- Witness for C2: a successful orchestration reports a non-empty map,
and a candidate parsing to the empty map hands over to the rest of the
list. -/
theorem claim2_witness :
    ([("USD", Json.str "30000.5")] : PriceMap) ≠ [] ∧
    fetchLoop (fun _ => some (.obj [("bpi", .obj [])]))
      ["https://api.coindesk.com/v2/bpi/currentprice.json"] none =
      match fetchLoop (fun _ => some (.obj [("bpi", .obj [])])) [] (some []) with
      | .ok (q, t) => .ok (q, "https://api.coindesk.com/v2/bpi/currentprice.json" :: t)
      | .error e => .error e := by
  constructor
  · exact claim2_nonempty_success_and_fallback.1 fetchScript
      ["https://api.coinbase.com/v2/exchange-rates?currency=BTC"]
      [("USD", Json.str "30000.5")] (by rfl)
  · exact claim2_nonempty_success_and_fallback.2 (fun _ => some (.obj [("bpi", .obj [])]))
      "https://api.coindesk.com/v2/bpi/currentprice.json" (.obj [("bpi", .obj [])])
      [] none (some []) rfl (by rfl) (by rfl) (by rfl)

/-- Witness for the amended C3: each of the four missing-field shapes at a
concrete input. -/
theorem claim3_witness :
    parse_response (.obj []) "https://api.coindesk.com/v2/bpi/currentprice.json" =
      .ok (some []) ∧
    parse_response (.obj [])
      "https://api.coingecko.com/api/v3/simple/price?ids=bitcoin&vs_currencies=usd,eur,gbp,jpy,cny" =
      .ok (some []) ∧
    parse_response (.obj [("USD", .obj [("x", .num "1")])]) "https://blockchain.info/ticker" =
      .ok none ∧
    parse_response (.obj []) "https://api.coinbase.com/v2/exchange-rates?currency=BTC" =
      .ok (some []) := by
  refine ⟨claim3_missing_field_behavior.1 _ [] (by decide) rfl,
    claim3_missing_field_behavior.2.1 _ [] (by decide) (by decide) rfl,
    claim3_missing_field_behavior.2.2.1 _ [("USD", .obj [("x", .num "1")])]
      (by decide) (by decide) (by decide) ?_ ?_,
    claim3_missing_field_behavior.2.2.2 _ [] (by decide) (by decide) (by decide) (by decide)
      (Or.inl rfl)⟩
  · intro kv hkv
    rcases List.mem_singleton.mp hkv with rfl
    exact ⟨[("x", Json.num "1")], rfl⟩
  · exact ⟨("USD", .obj [("x", .num "1")]), List.mem_singleton.mpr rfl,
      [("x", Json.num "1")], rfl, rfl⟩

/-- Witness for C4: a concrete coinbase-like response whose `data.rates`
holds a `BTC` entry and a `USD` entry. -/
theorem claim4_witness :
    parse_response
      (.obj [("data", .obj [("rates", .obj [("BTC", .str "1"), ("USD", .str "30000.5")])])])
      "https://api.coinbase.com/v2/exchange-rates?currency=BTC" =
      .ok (some [("USD", Json.str "30000.5")]) := by
  have h := claim4_coinbase_excludes_btc
    "https://api.coinbase.com/v2/exchange-rates?currency=BTC"
    [("data", .obj [("rates", .obj [("BTC", .str "1"), ("USD", .str "30000.5")])])]
    [("rates", .obj [("BTC", .str "1"), ("USD", .str "30000.5")])]
    [("BTC", .str "1"), ("USD", .str "30000.5")] (.str "1")
    (by decide) (by decide) (by decide) (by decide) rfl rfl
    (List.mem_cons_self _ _) (by decide)
  exact h.1

/-- Witness for C6: no URL answers, so the whole registry fails. -/
theorem claim6_witness :
    (∀ c ∈ DEFAULT_API :: BACKUP_APIS, candFails (fun _ => none) c = true) ∧
    resolvePrices (fun _ => none) (DEFAULT_API :: BACKUP_APIS) = .ok .allFailed :=
  ⟨by decide, claim6_all_failed (fun _ => none) (DEFAULT_API :: BACKUP_APIS) (by decide)⟩

/-- Witness for C7: a URL with none of the four schema tags. -/
theorem claim7_witness :
    strContains "https://example.com/prices" "coindesk" = false ∧
    strContains "https://example.com/prices" "coingecko" = false ∧
    strContains "https://example.com/prices" "blockchain" = false ∧
    strContains "https://example.com/prices" "coinbase" = false ∧
    parse_response (.obj [("x", .num "1")]) "https://example.com/prices" = .ok none :=
  ⟨by decide, by decide, by decide, by decide,
    claim7_unknown_source_yields_none (.obj [("x", .num "1")]) "https://example.com/prices"
      (by decide) (by decide) (by decide) (by decide)⟩

/-- Witness for C8: a currency with no symbol and a non-numeric value pass
through unchanged. -/
theorem claim8_witness :
    dictLookup CURRENCY_SYMBOLS "ZZZ" = none ∧
    pyFloatParse (dropCommas "abc") = none ∧
    format_price "ZZZ" "abc" = "abc" :=
  ⟨rfl, rfl, claim8_format_price.2.2 "ZZZ" "abc" rfl rfl⟩

/-- Witness for C9: a line with an unknown code is rejected as a whole,
and a blank line selects everything. -/
theorem claim9_witness :
    select_currencies ["USD"] ["usd, xxx", "usd"] = select_currencies ["USD"] ["usd"] ∧
    select_currencies ["USD", "EUR"] ["   "] = some ["USD", "EUR"] := by
  constructor
  · exact claim9_select_currencies.2.1 ["USD"] ["usd"] "usd, xxx" (by decide)
      ⟨"XXX", by decide, by decide⟩
  · exact claim9_select_currencies.2.2 ["USD", "EUR"] [] "   " (by decide)

end ApiFetcher

